import Mathlib

/-!
Verification of the AppStore contract (Solidity, `contracts/AppStore.sol`,
full variant with purchases).  The contract is shallowly embedded as a
functional state machine:

* `uint256` values are modelled as `Nat`; Solidity 0.8 checked arithmetic
  reverts on overflow, which we model with explicit `UMAX` guards at the
  two places a single transaction can overflow with realistic inputs
  (the fee multiplication `price * platformFee` and the revenue
  accumulation `totalRevenue += price`).  Counter increments
  (`totalDownloads++`, `totalApps++`) are modelled as plain `Nat`
  successors: their overflow would need `2^256` prior transactions.
* `mapping`s are modelled as total functions with the Solidity zero
  value as default, and `keccak256(abi.encodePacked(slug))` keys are
  identified with the slug itself (keccak is collision-free in the
  contract's threat model).
* `require(cond, msg)` / revert is modelled by returning `Except Err`;
  `step` keeps the pre-state on an error, which is exactly the EVM
  all-or-nothing transaction semantics.  Outbound low-level calls
  (`addr.call{value: v}("")`) are modelled by an oracle
  `tOk : address → amount → Bool` deciding whether the recipient accepts,
  and every performed transfer is recorded in a `transfers` log; the
  ether held by the contract is tracked in `contractBalance`
  (a `payable` entry adds `msg.value` to it).  The `nonReentrant`
  modifier needs no model because the embedding has no callbacks.
-/

/-- Modulus of `uint256` arithmetic. -/
def UMAX : Nat := 2 ^ 256

/-- Mirrors `struct Version` of the contract. -/
structure Version where
  manifestCid : String
  timestamp : Nat
  versionCode : Nat
  deprecated : Bool
deriving DecidableEq

/-- Mirrors `struct App` of the contract (`exists` is a Lean keyword,
hence the trailing underscore). -/
structure App where
  publisher : Nat
  slug : String
  latestManifestCid : String
  priceWei : Nat
  totalDownloads : Nat
  totalRevenue : Nat
  exists_ : Bool
  active : Bool
  createdAt : Nat
deriving DecidableEq

/-- Mirrors `struct Purchase` of the contract. -/
structure Purchase where
  buyer : Nat
  timestamp : Nat
  pricePaid : Nat
deriving DecidableEq

/-- Error kinds, one per `require` / checked-arithmetic revert reason of
the contract (names follow the specification's taxonomy). -/
inductive Err where
  | DuplicateSlug
  | EmptySlug
  | EmptyContentRef
  | NotFound
  | NotAuthorized
  | NonMonotonicVersion
  | Inactive
  | AlreadyPurchased
  | InsufficientPayment
  | TransferFailed
  | InvalidIndex
  | FeeTooHigh
  | InvalidAddress
  | Overflow
deriving DecidableEq

/-- The contract's storage, plus the observables of the execution
environment (`contractBalance`, `transfers`). -/
structure AppStoreState where
  apps : String → App
  versions : String → List Version
  hasPurchased : Nat → String → Bool
  purchases : String → List Purchase
  platformFee : Nat
  feeCollector : Nat
  totalApps : Nat
  owner : Nat
  contractBalance : Nat
  transfers : List (Nat × Nat)

/-- Solidity zero value of `struct App`: what `apps[key]` yields before
any assignment. -/
def defaultApp : App :=
  { publisher := 0, slug := "", latestManifestCid := "", priceWei := 0,
    totalDownloads := 0, totalRevenue := 0, exists_ := false,
    active := false, createdAt := 0 }

/-- State right after deployment: the constructor runs
`Ownable(msg.sender)` and `feeCollector = msg.sender`;
`platformFee` is declared with initializer `250`. -/
def initState (deployer : Nat) : AppStoreState :=
  { apps := fun _ => defaultApp, versions := fun _ => [],
    hasPurchased := fun _ _ => false, purchases := fun _ => [],
    platformFee := 250, feeCollector := deployer, totalApps := 0,
    owner := deployer, contractBalance := 0, transfers := [] }

/-- Mirrors `function registerApp` (lines 139-173). -/
def registerApp (sender time : Nat) (slug manifestCid : String)
    (priceWei versionCode : Nat) (s : AppStoreState) :
    Except Err AppStoreState :=
  if (s.apps slug).exists_ then .error .DuplicateSlug
  else if slug = "" then .error .EmptySlug
  else if manifestCid = "" then .error .EmptyContentRef
  else .ok { s with
    apps := Function.update s.apps slug
      { publisher := sender, slug := slug, latestManifestCid := manifestCid,
        priceWei := priceWei, totalDownloads := 0, totalRevenue := 0,
        exists_ := true, active := true, createdAt := time },
    versions := Function.update s.versions slug
      (s.versions slug ++
        [{ manifestCid := manifestCid, timestamp := time,
           versionCode := versionCode, deprecated := false }]),
    totalApps := s.totalApps + 1 }

/-- Mirrors `function publishVersion` (lines 181-209): the monotonicity
check reads `versions[key][versions[key].length - 1]`, guarded by
`versions[key].length > 0`. -/
def publishVersion (sender time : Nat) (slug manifestCid : String)
    (versionCode : Nat) (s : AppStoreState) : Except Err AppStoreState :=
  if (s.apps slug).exists_ = false then .error .NotFound
  else if (s.apps slug).publisher ≠ sender then .error .NotAuthorized
  else if manifestCid = "" then .error .EmptyContentRef
  else match (s.versions slug).getLast? with
    | some last =>
        if versionCode ≤ last.versionCode then .error .NonMonotonicVersion
        else .ok { s with
          apps := Function.update s.apps slug
            { s.apps slug with latestManifestCid := manifestCid },
          versions := Function.update s.versions slug
            (s.versions slug ++
              [{ manifestCid := manifestCid, timestamp := time,
                 versionCode := versionCode, deprecated := false }]) }
    | none => .ok { s with
        apps := Function.update s.apps slug
          { s.apps slug with latestManifestCid := manifestCid },
        versions := Function.update s.versions slug
          (s.versions slug ++
            [{ manifestCid := manifestCid, timestamp := time,
               versionCode := versionCode, deprecated := false }]) }

/-- Fee split of line 238: `uint256 fee = (price * platformFee) / 10000`. -/
def computeFee (price platformFee : Nat) : Nat := price * platformFee / 10000

/-- Mirrors `function purchaseApp` (lines 215-271).  `msgValue` is the
value attached to the `payable` call, `tOk` the environment's verdict on
each outbound `call{value: ...}`.  State mutations (lines 242-253) and
value transfers (lines 256-268) are committed together on overall
success, which agrees with EVM revert semantics because any failed
`require` discards all of them. -/
def purchaseApp (sender time msgValue : Nat) (slug : String)
    (tOk : Nat → Nat → Bool) (s : AppStoreState) :
    Except Err AppStoreState :=
  if (s.apps slug).exists_ = false then .error .NotFound
  else if (s.apps slug).active = false then .error .Inactive
  else if (s.apps slug).priceWei = 0 then
    .ok { s with
      apps := Function.update s.apps slug
        { s.apps slug with
          totalDownloads := (s.apps slug).totalDownloads + 1 },
      contractBalance := s.contractBalance + msgValue }
  else if s.hasPurchased sender slug then .error .AlreadyPurchased
  else if msgValue < (s.apps slug).priceWei then .error .InsufficientPayment
  else if UMAX ≤ (s.apps slug).priceWei * s.platformFee then .error .Overflow
  else if (s.apps slug).priceWei <
      computeFee (s.apps slug).priceWei s.platformFee then .error .Overflow
  else if UMAX ≤ (s.apps slug).totalRevenue + (s.apps slug).priceWei then
    .error .Overflow
  else if tOk (s.apps slug).publisher
      ((s.apps slug).priceWei -
        computeFee (s.apps slug).priceWei s.platformFee) = false then
    .error .TransferFailed
  else if 0 < computeFee (s.apps slug).priceWei s.platformFee ∧
      tOk s.feeCollector (computeFee (s.apps slug).priceWei s.platformFee)
        = false then
    .error .TransferFailed
  else if (s.apps slug).priceWei < msgValue ∧
      tOk sender (msgValue - (s.apps slug).priceWei) = false then
    .error .TransferFailed
  else .ok { s with
    apps := Function.update s.apps slug
      { s.apps slug with
        totalDownloads := (s.apps slug).totalDownloads + 1,
        totalRevenue := (s.apps slug).totalRevenue + (s.apps slug).priceWei },
    hasPurchased := Function.update s.hasPurchased sender
      (Function.update (s.hasPurchased sender) slug true),
    purchases := Function.update s.purchases slug
      (s.purchases slug ++
        [{ buyer := sender, timestamp := time,
           pricePaid := (s.apps slug).priceWei }]),
    contractBalance := s.contractBalance + msgValue
      - ((s.apps slug).priceWei -
          computeFee (s.apps slug).priceWei s.platformFee)
      - computeFee (s.apps slug).priceWei s.platformFee
      - (if (s.apps slug).priceWei < msgValue then
          msgValue - (s.apps slug).priceWei else 0),
    transfers := s.transfers
      ++ [((s.apps slug).publisher,
           (s.apps slug).priceWei -
             computeFee (s.apps slug).priceWei s.platformFee)]
      ++ (if 0 < computeFee (s.apps slug).priceWei s.platformFee then
           [(s.feeCollector,
             computeFee (s.apps slug).priceWei s.platformFee)] else [])
      ++ (if (s.apps slug).priceWei < msgValue then
           [(sender, msgValue - (s.apps slug).priceWei)] else []) }

/-- Mirrors `function updatePrice` (lines 278-288). -/
def updatePrice (sender : Nat) (slug : String) (newPriceWei : Nat)
    (s : AppStoreState) : Except Err AppStoreState :=
  if (s.apps slug).exists_ = false then .error .NotFound
  else if (s.apps slug).publisher ≠ sender then .error .NotAuthorized
  else .ok { s with
    apps := Function.update s.apps slug
      { s.apps slug with priceWei := newPriceWei } }

/-- Effect of `versions[key][versionIndex].deprecated = true` on the
stored array. -/
def markDeprecated : List Version → Nat → List Version
  | [], _ => []
  | v :: vs, 0 => { v with deprecated := true } :: vs
  | v :: vs, n + 1 => v :: markDeprecated vs n

/-- Mirrors `function deprecateVersion` (lines 295-304). -/
def deprecateVersion (sender : Nat) (slug : String) (versionIndex : Nat)
    (s : AppStoreState) : Except Err AppStoreState :=
  if (s.apps slug).exists_ = false then .error .NotFound
  else if (s.apps slug).publisher ≠ sender then .error .NotAuthorized
  else if (s.versions slug).length ≤ versionIndex then .error .InvalidIndex
  else .ok { s with
    versions := Function.update s.versions slug
      (markDeprecated (s.versions slug) versionIndex) }

/-- Mirrors `function setPlatformFee` (lines 389-393, `onlyOwner`). -/
def setPlatformFee (sender newFee : Nat) (s : AppStoreState) :
    Except Err AppStoreState :=
  if s.owner ≠ sender then .error .NotAuthorized
  else if 1000 < newFee then .error .FeeTooHigh
  else .ok { s with platformFee := newFee }

/-- Mirrors `function setFeeCollector` (lines 398-402, `onlyOwner`). -/
def setFeeCollector (sender newCollector : Nat) (s : AppStoreState) :
    Except Err AppStoreState :=
  if s.owner ≠ sender then .error .NotAuthorized
  else if newCollector = 0 then .error .InvalidAddress
  else .ok { s with feeCollector := newCollector }

/-- Mirrors `function setAppStatus` (lines 407-412, `onlyOwner`). -/
def setAppStatus (sender : Nat) (slug : String) (active : Bool)
    (s : AppStoreState) : Except Err AppStoreState :=
  if s.owner ≠ sender then .error .NotAuthorized
  else if (s.apps slug).exists_ = false then .error .NotFound
  else .ok { s with
    apps := Function.update s.apps slug
      { s.apps slug with active := active } }

/-- Mirrors view `getLatestManifest` (lines 311-319). -/
def getLatestManifest (slug : String) (s : AppStoreState) :
    Except Err String :=
  if (s.apps slug).exists_ = false then .error .NotFound
  else .ok (s.apps slug).latestManifestCid

/-- Mirrors view `getVersionCount` (lines 324-331): note there is no
existence check, an unknown slug yields the empty array's length. -/
def getVersionCount (slug : String) (s : AppStoreState) : Nat :=
  (s.versions slug).length

/-- Mirrors view `getVersion` (lines 336-344). -/
def getVersion (slug : String) (index : Nat) (s : AppStoreState) :
    Except Err Version :=
  if h : index < (s.versions slug).length then
    .ok ((s.versions slug).get ⟨index, h⟩)
  else .error .InvalidIndex

/-- Mirrors view `hasUserPurchased` (lines 349-356): note there is no
existence check, an unknown slug yields the mapping default `false`. -/
def hasUserPurchased (user : Nat) (slug : String) (s : AppStoreState) :
    Bool :=
  s.hasPurchased user slug

/-- Mirrors view `getApp` (lines 361-369). -/
def getApp (slug : String) (s : AppStoreState) : Except Err App :=
  if (s.apps slug).exists_ = false then .error .NotFound
  else .ok (s.apps slug)

/-- Mirrors view `getPurchaseCount` (lines 374-381). -/
def getPurchaseCount (slug : String) (s : AppStoreState) : Nat :=
  (s.purchases slug).length

/-- One transaction submitted to the contract, with the environment
inputs it depends on (`sender` = `msg.sender`, `time` =
`block.timestamp`, `msgValue` = `msg.value`, `tOk` = transfer oracle). -/
inductive Op where
  | register (sender time : Nat) (slug manifestCid : String)
      (priceWei versionCode : Nat)
  | publish (sender time : Nat) (slug manifestCid : String)
      (versionCode : Nat)
  | purchase (sender time msgValue : Nat) (slug : String)
      (tOk : Nat → Nat → Bool)
  | price (sender : Nat) (slug : String) (newPriceWei : Nat)
  | deprecate (sender : Nat) (slug : String) (versionIndex : Nat)
  | fee (sender newFee : Nat)
  | collector (sender newCollector : Nat)
  | status (sender : Nat) (slug : String) (active : Bool)

/-- Dispatch of one transaction to the contract function it calls. -/
def applyOp : Op → AppStoreState → Except Err AppStoreState
  | .register sender time slug cid p v, s => registerApp sender time slug cid p v s
  | .publish sender time slug cid v, s => publishVersion sender time slug cid v s
  | .purchase sender time value slug tOk, s => purchaseApp sender time value slug tOk s
  | .price sender slug p, s => updatePrice sender slug p s
  | .deprecate sender slug i, s => deprecateVersion sender slug i s
  | .fee sender f, s => setPlatformFee sender f s
  | .collector sender c, s => setFeeCollector sender c s
  | .status sender slug a, s => setAppStatus sender slug a s

/-- Post-transaction state: a reverted transaction leaves the chain
state untouched. -/
def commit (s : AppStoreState) : Except Err AppStoreState → AppStoreState
  | .ok s' => s'
  | .error _ => s

/-- Executes one transaction with EVM revert semantics. -/
def step (op : Op) (s : AppStoreState) : AppStoreState :=
  commit s (applyOp op s)

/-- State reached from deployment by a sequence of transactions. -/
def reach (deployer : Nat) (ops : List Op) : AppStoreState :=
  ops.foldl (fun s op => step op s) (initState deployer)

/-- Whether a call succeeded. -/
def isSuccess : Except Err AppStoreState → Bool
  | .ok _ => true
  | .error _ => false

/-- Spec-side definition used only for the refinement comparison of the
`latestManifestRef` claim: the reference of the most recently appended
version that is not deprecated ("the most recently appended
non-retracted version's reference"). -/
def specLatestNonDeprecated (vs : List Version) : Option String :=
  ((vs.filter (fun v => !v.deprecated)).getLast?).map Version.manifestCid

/-- Concrete state: one paid app registered (specification example 1). -/
def sChat : AppStoreState :=
  reach 1 [Op.register 10 0 "chat" "ref-123" 100 1]

/-- Concrete state: one free app registered. -/
def sFree : AppStoreState :=
  reach 1 [Op.register 10 0 "free-app" "ref-789" 0 1]

/-- Concrete state: the paid app bought once by buyer 7. -/
def sChatBought : AppStoreState :=
  step (Op.purchase 7 5 100 "chat" (fun _ _ => true)) sChat

/-- Concrete state: register, publish a second version, then deprecate
the last (second) version. -/
def sDep : AppStoreState :=
  reach 1 [Op.register 10 0 "app" "c1" 0 1,
           Op.publish 10 1 "app" "c2" 2,
           Op.deprecate 10 "app" 1]

/-! ## Helper lemmas about the version-array mutation -/

theorem markDeprecated_map_versionCode (vs : List Version) (i : Nat) :
    (markDeprecated vs i).map Version.versionCode
      = vs.map Version.versionCode := by
  induction vs generalizing i with
  | nil => rfl
  | cons v vs ih =>
    cases i with
    | zero => rfl
    | succ n => simp [markDeprecated, ih]

theorem markDeprecated_map_manifestCid (vs : List Version) (i : Nat) :
    (markDeprecated vs i).map Version.manifestCid
      = vs.map Version.manifestCid := by
  induction vs generalizing i with
  | nil => rfl
  | cons v vs ih =>
    cases i with
    | zero => rfl
    | succ n => simp [markDeprecated, ih]

theorem markDeprecated_length (vs : List Version) (i : Nat) :
    (markDeprecated vs i).length = vs.length := by
  induction vs generalizing i with
  | nil => rfl
  | cons v vs ih =>
    cases i with
    | zero => rfl
    | succ n => simp [markDeprecated, ih]

/-- GetLast commutes with map, specialized to the fields we track. -/
theorem getLast?_map_field (f : Version → String) (l : List Version) :
    (l.map f).getLast? = l.getLast?.map f :=
  List.getLast?_map f l

/-! ## The inductive invariant of the contract storage -/

/-- All storage invariants maintained by the contract, as one inductive
invariant over the transaction semantics. -/
structure StoreInv (s : AppStoreState) : Prop where
  fee_bound : s.platformFee ≤ 1000
  fresh_versions : ∀ slug, (s.apps slug).exists_ = false →
    s.versions slug = []
  fresh_purchases : ∀ slug, (s.apps slug).exists_ = false →
    s.purchases slug = []
  fresh_flag : ∀ buyer slug, (s.apps slug).exists_ = false →
    s.hasPurchased buyer slug = false
  latest_mirror : ∀ slug, (s.apps slug).exists_ = true →
    ((s.versions slug).getLast?).map Version.manifestCid
      = some (s.apps slug).latestManifestCid
  codes_mono : ∀ slug,
    List.Chain' (· < ·) ((s.versions slug).map Version.versionCode)
  revenue_sum : ∀ slug, (s.apps slug).totalRevenue
    = ((s.purchases slug).map Purchase.pricePaid).sum
  once : ∀ buyer slug,
    ((s.purchases slug).filter (fun p => p.buyer == buyer)).length
      ≤ if s.hasPurchased buyer slug then 1 else 0

theorem inv_initState (deployer : Nat) : StoreInv (initState deployer) := by
  constructor <;> intros <;> simp_all [initState, defaultApp]

theorem inv_registerApp {s s' : AppStoreState}
    {sender time priceWei versionCode : Nat} {slug cid : String}
    (hI : StoreInv s)
    (h : registerApp sender time slug cid priceWei versionCode s = .ok s') :
    StoreInv s' := by
  simp only [registerApp] at h
  split at h
  · exact Except.noConfusion h
  split at h
  · exact Except.noConfusion h
  split at h
  · exact Except.noConfusion h
  rename_i hex _ _
  replace hex : (s.apps slug).exists_ = false := by
    simpa using hex
  cases h
  constructor
  · exact hI.fee_bound
  · intro k hk
    rcases eq_or_ne k slug with e | e
    · subst e; simp [Function.update_same] at hk
    · simp only [Function.update_noteq e] at hk ⊢
      exact hI.fresh_versions k hk
  · intro k hk
    rcases eq_or_ne k slug with e | e
    · subst e; simp [Function.update_same] at hk
    · simp only [Function.update_noteq e] at hk
      exact hI.fresh_purchases k hk
  · intro b k hk
    rcases eq_or_ne k slug with e | e
    · subst e; simp [Function.update_same] at hk
    · simp only [Function.update_noteq e] at hk
      exact hI.fresh_flag b k hk
  · intro k hk
    rcases eq_or_ne k slug with e | e
    · subst e
      simp [Function.update_same, hI.fresh_versions k hex]
    · simp only [Function.update_noteq e] at hk ⊢
      exact hI.latest_mirror k hk
  · intro k
    rcases eq_or_ne k slug with e | e
    · subst e
      simp [Function.update_same, hI.fresh_versions k hex]
    · simp only [Function.update_noteq e]
      exact hI.codes_mono k
  · intro k
    rcases eq_or_ne k slug with e | e
    · subst e
      simp [Function.update_same, hI.fresh_purchases k hex]
    · simp only [Function.update_noteq e]
      exact hI.revenue_sum k
  · intro b k
    exact hI.once b k

theorem inv_pushVersion {s : AppStoreState} {slug cid : String}
    {time versionCode : Nat}
    (hI : StoreInv s) (hex : (s.apps slug).exists_ = true)
    (hmono : ∀ last, (s.versions slug).getLast? = some last →
      last.versionCode < versionCode) :
    StoreInv { s with
      apps := Function.update s.apps slug
        { s.apps slug with latestManifestCid := cid },
      versions := Function.update s.versions slug
        (s.versions slug ++
          [{ manifestCid := cid, timestamp := time,
             versionCode := versionCode, deprecated := false }]) } := by
  constructor
  · exact hI.fee_bound
  · intro k hk
    rcases eq_or_ne k slug with e | e
    · subst e; simp [Function.update_same, hex] at hk
    · simp only [Function.update_noteq e] at hk ⊢
      exact hI.fresh_versions k hk
  · intro k hk
    rcases eq_or_ne k slug with e | e
    · subst e; simp [Function.update_same, hex] at hk
    · simp only [Function.update_noteq e] at hk
      exact hI.fresh_purchases k hk
  · intro b k hk
    rcases eq_or_ne k slug with e | e
    · subst e; simp [Function.update_same, hex] at hk
    · simp only [Function.update_noteq e] at hk
      exact hI.fresh_flag b k hk
  · intro k hk
    rcases eq_or_ne k slug with e | e
    · subst e
      simp [Function.update_same]
    · simp only [Function.update_noteq e] at hk ⊢
      exact hI.latest_mirror k hk
  · intro k
    rcases eq_or_ne k slug with e | e
    · subst e
      simp only [Function.update_same, List.map_append, List.map_cons,
        List.map_nil]
      refine List.chain'_append.mpr ⟨hI.codes_mono k, ?_, ?_⟩
      · simp
      · intro x hx y hy
        simp only [List.head?_cons, Option.mem_def, Option.some.injEq] at hy
        subst hy
        rw [List.getLast?_map] at hx
        cases hl : (s.versions k).getLast? with
        | none => rw [hl] at hx; simp at hx
        | some last =>
          rw [hl] at hx
          simp only [Option.map_some', Option.mem_def, Option.some.injEq] at hx
          subst hx
          exact hmono last hl
    · simp only [Function.update_noteq e]
      exact hI.codes_mono k
  · intro k
    rcases eq_or_ne k slug with e | e
    · subst e
      simpa [Function.update_same] using hI.revenue_sum k
    · simp only [Function.update_noteq e]
      exact hI.revenue_sum k
  · intro b k
    exact hI.once b k

theorem inv_publishVersion {s s' : AppStoreState}
    {sender time versionCode : Nat} {slug cid : String}
    (hI : StoreInv s)
    (h : publishVersion sender time slug cid versionCode s = .ok s') :
    StoreInv s' := by
  simp only [publishVersion] at h
  split at h
  · exact Except.noConfusion h
  split at h
  · exact Except.noConfusion h
  split at h
  · exact Except.noConfusion h
  rename_i hex _ _
  replace hex : (s.apps slug).exists_ = true := by
    simpa using hex
  split at h
  · rename_i last hlast
    split at h
    · exact Except.noConfusion h
    rename_i hlt
    cases h
    exact inv_pushVersion hI hex (by
      intro l hl
      rw [hlast] at hl
      cases hl
      omega)
  · rename_i hnone
    cases h
    exact inv_pushVersion hI hex (by
      intro l hl
      rw [hnone] at hl
      exact Option.noConfusion hl)

theorem inv_purchaseApp {s s' : AppStoreState}
    {sender time msgValue : Nat} {slug : String} {tOk : Nat → Nat → Bool}
    (hI : StoreInv s)
    (h : purchaseApp sender time msgValue slug tOk s = .ok s') :
    StoreInv s' := by
  simp only [purchaseApp] at h
  by_cases c1 : (s.apps slug).exists_ = false
  · rw [if_pos c1] at h; exact Except.noConfusion h
  rw [if_neg c1] at h
  replace c1 : (s.apps slug).exists_ = true := by simpa using c1
  by_cases c2 : (s.apps slug).active = false
  · rw [if_pos c2] at h; exact Except.noConfusion h
  rw [if_neg c2] at h
  by_cases c3 : (s.apps slug).priceWei = 0
  · -- free path: only totalDownloads and the contract balance change
    rw [if_pos c3] at h
    cases h
    constructor
    · exact hI.fee_bound
    · intro k hk
      rcases eq_or_ne k slug with e | e
      · subst e; simp [Function.update_same, c1] at hk
      · simp only [Function.update_noteq e] at hk ⊢
        exact hI.fresh_versions k hk
    · intro k hk
      rcases eq_or_ne k slug with e | e
      · subst e; simp [Function.update_same, c1] at hk
      · simp only [Function.update_noteq e] at hk
        exact hI.fresh_purchases k hk
    · intro b k hk
      rcases eq_or_ne k slug with e | e
      · subst e; simp [Function.update_same, c1] at hk
      · simp only [Function.update_noteq e] at hk
        exact hI.fresh_flag b k hk
    · intro k hk
      rcases eq_or_ne k slug with e | e
      · subst e
        simpa [Function.update_same] using hI.latest_mirror k c1
      · simp only [Function.update_noteq e] at hk ⊢
        exact hI.latest_mirror k hk
    · intro k
      exact hI.codes_mono k
    · intro k
      rcases eq_or_ne k slug with e | e
      · subst e
        simpa [Function.update_same] using hI.revenue_sum k
      · simp only [Function.update_noteq e]
        exact hI.revenue_sum k
    · intro b k
      exact hI.once b k
  rw [if_neg c3] at h
  by_cases c4 : s.hasPurchased sender slug = true
  · rw [if_pos c4] at h; exact Except.noConfusion h
  rw [if_neg c4] at h
  replace c4 : s.hasPurchased sender slug = false := by simpa using c4
  by_cases c5 : msgValue < (s.apps slug).priceWei
  · rw [if_pos c5] at h; exact Except.noConfusion h
  rw [if_neg c5] at h
  by_cases c6 : UMAX ≤ (s.apps slug).priceWei * s.platformFee
  · rw [if_pos c6] at h; exact Except.noConfusion h
  rw [if_neg c6] at h
  by_cases c7 : (s.apps slug).priceWei <
      computeFee (s.apps slug).priceWei s.platformFee
  · rw [if_pos c7] at h; exact Except.noConfusion h
  rw [if_neg c7] at h
  by_cases c8 : UMAX ≤ (s.apps slug).totalRevenue + (s.apps slug).priceWei
  · rw [if_pos c8] at h; exact Except.noConfusion h
  rw [if_neg c8] at h
  by_cases c9 : tOk (s.apps slug).publisher
      ((s.apps slug).priceWei -
        computeFee (s.apps slug).priceWei s.platformFee) = false
  · rw [if_pos c9] at h; exact Except.noConfusion h
  rw [if_neg c9] at h
  by_cases c10 : 0 < computeFee (s.apps slug).priceWei s.platformFee ∧
      tOk s.feeCollector (computeFee (s.apps slug).priceWei s.platformFee)
        = false
  · rw [if_pos c10] at h; exact Except.noConfusion h
  rw [if_neg c10] at h
  by_cases c11 : (s.apps slug).priceWei < msgValue ∧
      tOk sender (msgValue - (s.apps slug).priceWei) = false
  · rw [if_pos c11] at h; exact Except.noConfusion h
  rw [if_neg c11] at h
  cases h
  constructor
  · exact hI.fee_bound
  · intro k hk
    rcases eq_or_ne k slug with e | e
    · subst e; simp [Function.update_same, c1] at hk
    · simp only [Function.update_noteq e] at hk ⊢
      exact hI.fresh_versions k hk
  · intro k hk
    rcases eq_or_ne k slug with e | e
    · subst e; simp [Function.update_same, c1] at hk
    · simp only [Function.update_noteq e] at hk ⊢
      exact hI.fresh_purchases k hk
  · intro b k hk
    have ek : k ≠ slug := by
      intro e; subst e
      simp [Function.update_same, c1] at hk
    simp only [Function.update_noteq ek] at hk
    rcases eq_or_ne b sender with eb | eb
    · subst eb
      simp only [Function.update_same, Function.update_noteq ek]
      exact hI.fresh_flag b k hk
    · simp only [Function.update_noteq eb]
      exact hI.fresh_flag b k hk
  · intro k hk
    rcases eq_or_ne k slug with e | e
    · subst e
      simpa [Function.update_same] using hI.latest_mirror k c1
    · simp only [Function.update_noteq e] at hk ⊢
      exact hI.latest_mirror k hk
  · intro k
    exact hI.codes_mono k
  · intro k
    rcases eq_or_ne k slug with e | e
    · subst e
      simp [Function.update_same, hI.revenue_sum k]
    · simp only [Function.update_noteq e]
      exact hI.revenue_sum k
  · intro b k
    rcases eq_or_ne k slug with ek | ek
    · subst ek
      rcases eq_or_ne b sender with eb | eb
      · subst eb
        have h0 : ((s.purchases k).filter
            (fun p => p.buyer == b)).length = 0 := by
          have h1 := hI.once b k
          rw [c4] at h1
          simpa using h1
        simp [Function.update_same, List.filter_append, h0]
      · have h1 := hI.once b k
        have hs : (sender == b) = false := by
          rw [beq_eq_false_iff_ne]
          exact Ne.symm eb
        simp only [Function.update_same, List.filter_append,
          List.length_append, Function.update_noteq eb]
        simpa [hs] using h1
    · rcases eq_or_ne b sender with eb | eb
      · subst eb
        have h1 := hI.once b k
        simp only [Function.update_noteq ek, Function.update_same]
        simpa [Function.update_noteq ek] using h1
      · have h1 := hI.once b k
        simp only [Function.update_noteq ek, Function.update_noteq eb]
        exact h1

theorem markDeprecated_getLast?_cid (vs : List Version) (i : Nat) :
    ((markDeprecated vs i).getLast?).map Version.manifestCid
      = (vs.getLast?).map Version.manifestCid := by
  rw [← List.getLast?_map, ← List.getLast?_map, markDeprecated_map_manifestCid]

theorem inv_updatePrice {s s' : AppStoreState} {sender newPriceWei : Nat}
    {slug : String} (hI : StoreInv s)
    (h : updatePrice sender slug newPriceWei s = .ok s') : StoreInv s' := by
  simp only [updatePrice] at h
  split at h
  · exact Except.noConfusion h
  split at h
  · exact Except.noConfusion h
  rename_i hex _
  replace hex : (s.apps slug).exists_ = true := by simpa using hex
  cases h
  constructor
  · exact hI.fee_bound
  · intro k hk
    rcases eq_or_ne k slug with e | e
    · subst e; simp [Function.update_same, hex] at hk
    · simp only [Function.update_noteq e] at hk ⊢
      exact hI.fresh_versions k hk
  · intro k hk
    rcases eq_or_ne k slug with e | e
    · subst e; simp [Function.update_same, hex] at hk
    · simp only [Function.update_noteq e] at hk
      exact hI.fresh_purchases k hk
  · intro b k hk
    rcases eq_or_ne k slug with e | e
    · subst e; simp [Function.update_same, hex] at hk
    · simp only [Function.update_noteq e] at hk
      exact hI.fresh_flag b k hk
  · intro k hk
    rcases eq_or_ne k slug with e | e
    · subst e
      simpa [Function.update_same] using hI.latest_mirror k hex
    · simp only [Function.update_noteq e] at hk ⊢
      exact hI.latest_mirror k hk
  · intro k
    exact hI.codes_mono k
  · intro k
    rcases eq_or_ne k slug with e | e
    · subst e
      simpa [Function.update_same] using hI.revenue_sum k
    · simp only [Function.update_noteq e]
      exact hI.revenue_sum k
  · intro b k
    exact hI.once b k

theorem inv_deprecateVersion {s s' : AppStoreState}
    {sender versionIndex : Nat} {slug : String} (hI : StoreInv s)
    (h : deprecateVersion sender slug versionIndex s = .ok s') :
    StoreInv s' := by
  simp only [deprecateVersion] at h
  split at h
  · exact Except.noConfusion h
  split at h
  · exact Except.noConfusion h
  split at h
  · exact Except.noConfusion h
  cases h
  constructor
  · exact hI.fee_bound
  · intro k hk
    rcases eq_or_ne k slug with e | e
    · subst e
      simp only [Function.update_same]
      rw [hI.fresh_versions k hk]
      rfl
    · simp only [Function.update_noteq e]
      exact hI.fresh_versions k hk
  · intro k hk
    exact hI.fresh_purchases k hk
  · intro b k hk
    exact hI.fresh_flag b k hk
  · intro k hk
    rcases eq_or_ne k slug with e | e
    · subst e
      simp only [Function.update_same, markDeprecated_getLast?_cid]
      exact hI.latest_mirror k hk
    · simp only [Function.update_noteq e]
      exact hI.latest_mirror k hk
  · intro k
    rcases eq_or_ne k slug with e | e
    · subst e
      simp only [Function.update_same, markDeprecated_map_versionCode]
      exact hI.codes_mono k
    · simp only [Function.update_noteq e]
      exact hI.codes_mono k
  · intro k
    exact hI.revenue_sum k
  · intro b k
    exact hI.once b k

theorem inv_setPlatformFee {s s' : AppStoreState} {sender newFee : Nat}
    (hI : StoreInv s) (h : setPlatformFee sender newFee s = .ok s') :
    StoreInv s' := by
  simp only [setPlatformFee] at h
  split at h
  · exact Except.noConfusion h
  split at h
  · exact Except.noConfusion h
  rename_i hle
  cases h
  constructor
  · dsimp only
    omega
  · exact hI.fresh_versions
  · exact hI.fresh_purchases
  · exact hI.fresh_flag
  · exact hI.latest_mirror
  · exact hI.codes_mono
  · exact hI.revenue_sum
  · exact hI.once

theorem inv_setFeeCollector {s s' : AppStoreState}
    {sender newCollector : Nat} (hI : StoreInv s)
    (h : setFeeCollector sender newCollector s = .ok s') : StoreInv s' := by
  simp only [setFeeCollector] at h
  split at h
  · exact Except.noConfusion h
  split at h
  · exact Except.noConfusion h
  cases h
  constructor
  · exact hI.fee_bound
  · exact hI.fresh_versions
  · exact hI.fresh_purchases
  · exact hI.fresh_flag
  · exact hI.latest_mirror
  · exact hI.codes_mono
  · exact hI.revenue_sum
  · exact hI.once

theorem inv_setAppStatus {s s' : AppStoreState} {sender : Nat}
    {slug : String} {active : Bool} (hI : StoreInv s)
    (h : setAppStatus sender slug active s = .ok s') : StoreInv s' := by
  simp only [setAppStatus] at h
  split at h
  · exact Except.noConfusion h
  split at h
  · exact Except.noConfusion h
  rename_i hex
  replace hex : (s.apps slug).exists_ = true := by simpa using hex
  cases h
  constructor
  · exact hI.fee_bound
  · intro k hk
    rcases eq_or_ne k slug with e | e
    · subst e; simp [Function.update_same, hex] at hk
    · simp only [Function.update_noteq e] at hk ⊢
      exact hI.fresh_versions k hk
  · intro k hk
    rcases eq_or_ne k slug with e | e
    · subst e; simp [Function.update_same, hex] at hk
    · simp only [Function.update_noteq e] at hk
      exact hI.fresh_purchases k hk
  · intro b k hk
    rcases eq_or_ne k slug with e | e
    · subst e; simp [Function.update_same, hex] at hk
    · simp only [Function.update_noteq e] at hk
      exact hI.fresh_flag b k hk
  · intro k hk
    rcases eq_or_ne k slug with e | e
    · subst e
      simpa [Function.update_same] using hI.latest_mirror k hex
    · simp only [Function.update_noteq e] at hk ⊢
      exact hI.latest_mirror k hk
  · intro k
    exact hI.codes_mono k
  · intro k
    rcases eq_or_ne k slug with e | e
    · subst e
      simpa [Function.update_same] using hI.revenue_sum k
    · simp only [Function.update_noteq e]
      exact hI.revenue_sum k
  · intro b k
    exact hI.once b k

theorem inv_step (op : Op) {s : AppStoreState} (hI : StoreInv s) :
    StoreInv (step op s) := by
  cases hap : applyOp op s with
  | error e =>
    simpa [step, commit, hap] using hI
  | ok s1 =>
    have hst : step op s = s1 := by simp [step, commit, hap]
    rw [hst]
    cases op with
    | register sender time slug cid p v =>
      exact inv_registerApp hI hap
    | publish sender time slug cid v =>
      exact inv_publishVersion hI hap
    | purchase sender time value slug tOk =>
      exact inv_purchaseApp hI hap
    | price sender slug p =>
      exact inv_updatePrice hI hap
    | deprecate sender slug i =>
      exact inv_deprecateVersion hI hap
    | fee sender f =>
      exact inv_setPlatformFee hI hap
    | collector sender c =>
      exact inv_setFeeCollector hI hap
    | status sender slug a =>
      exact inv_setAppStatus hI hap

theorem inv_foldl (ops : List Op) {s : AppStoreState} (hI : StoreInv s) :
    StoreInv (ops.foldl (fun s op => step op s) s) := by
  induction ops generalizing s with
  | nil => exact hI
  | cons op ops ih => exact ih (inv_step op hI)

/-- Every state reachable from deployment satisfies all storage
invariants. -/
theorem inv_reach (deployer : Nat) (ops : List Op) :
    StoreInv (reach deployer ops) :=
  inv_foldl ops (inv_initState deployer)

/-! ## Path characterizations of `purchaseApp` -/

theorem purchaseApp_free {s : AppStoreState} {sender time msgValue : Nat}
    {slug : String} {tOk : Nat → Nat → Bool}
    (hex : (s.apps slug).exists_ = true)
    (hact : (s.apps slug).active = true)
    (hprice : (s.apps slug).priceWei = 0) :
    purchaseApp sender time msgValue slug tOk s = .ok { s with
      apps := Function.update s.apps slug
        { s.apps slug with
          totalDownloads := (s.apps slug).totalDownloads + 1 },
      contractBalance := s.contractBalance + msgValue } := by
  have hc1 : ¬ (s.apps slug).exists_ = false := by simp [hex]
  have hc2 : ¬ (s.apps slug).active = false := by simp [hact]
  rw [purchaseApp.eq_def, if_neg hc1, if_neg hc2, if_pos hprice]

theorem purchaseApp_already {s : AppStoreState} {sender time msgValue : Nat}
    {slug : String} {tOk : Nat → Nat → Bool}
    (hex : (s.apps slug).exists_ = true)
    (hact : (s.apps slug).active = true)
    (hprice : (s.apps slug).priceWei ≠ 0)
    (hflag : s.hasPurchased sender slug = true) :
    purchaseApp sender time msgValue slug tOk s
      = .error .AlreadyPurchased := by
  have hc1 : ¬ (s.apps slug).exists_ = false := by simp [hex]
  have hc2 : ¬ (s.apps slug).active = false := by simp [hact]
  rw [purchaseApp.eq_def, if_neg hc1, if_neg hc2, if_neg hprice,
    if_pos hflag]

theorem purchaseApp_paid {s : AppStoreState} {sender time msgValue : Nat}
    {slug : String} {tOk : Nat → Nat → Bool}
    (hex : (s.apps slug).exists_ = true)
    (hact : (s.apps slug).active = true)
    (hprice : (s.apps slug).priceWei ≠ 0)
    (hflag : s.hasPurchased sender slug = false)
    (hval : (s.apps slug).priceWei ≤ msgValue)
    (hov1 : (s.apps slug).priceWei * s.platformFee < UMAX)
    (hfee : computeFee (s.apps slug).priceWei s.platformFee
      ≤ (s.apps slug).priceWei)
    (hov2 : (s.apps slug).totalRevenue + (s.apps slug).priceWei < UMAX)
    (ht1 : tOk (s.apps slug).publisher
      ((s.apps slug).priceWei -
        computeFee (s.apps slug).priceWei s.platformFee) = true)
    (ht2 : 0 < computeFee (s.apps slug).priceWei s.platformFee →
      tOk s.feeCollector
        (computeFee (s.apps slug).priceWei s.platformFee) = true)
    (ht3 : (s.apps slug).priceWei < msgValue →
      tOk sender (msgValue - (s.apps slug).priceWei) = true) :
    purchaseApp sender time msgValue slug tOk s = .ok { s with
      apps := Function.update s.apps slug
        { s.apps slug with
          totalDownloads := (s.apps slug).totalDownloads + 1,
          totalRevenue := (s.apps slug).totalRevenue
            + (s.apps slug).priceWei },
      hasPurchased := Function.update s.hasPurchased sender
        (Function.update (s.hasPurchased sender) slug true),
      purchases := Function.update s.purchases slug
        (s.purchases slug ++
          [{ buyer := sender, timestamp := time,
             pricePaid := (s.apps slug).priceWei }]),
      contractBalance := s.contractBalance + msgValue
        - ((s.apps slug).priceWei -
            computeFee (s.apps slug).priceWei s.platformFee)
        - computeFee (s.apps slug).priceWei s.platformFee
        - (if (s.apps slug).priceWei < msgValue then
            msgValue - (s.apps slug).priceWei else 0),
      transfers := s.transfers
        ++ [((s.apps slug).publisher,
             (s.apps slug).priceWei -
               computeFee (s.apps slug).priceWei s.platformFee)]
        ++ (if 0 < computeFee (s.apps slug).priceWei s.platformFee then
             [(s.feeCollector,
               computeFee (s.apps slug).priceWei s.platformFee)] else [])
        ++ (if (s.apps slug).priceWei < msgValue then
             [(sender, msgValue - (s.apps slug).priceWei)] else []) } := by
  have hc1 : ¬ (s.apps slug).exists_ = false := by simp [hex]
  have hc2 : ¬ (s.apps slug).active = false := by simp [hact]
  have hc4 : ¬ s.hasPurchased sender slug = true := by simp [hflag]
  have hc5 : ¬ msgValue < (s.apps slug).priceWei := Nat.not_lt.mpr hval
  have hc6 : ¬ UMAX ≤ (s.apps slug).priceWei * s.platformFee :=
    Nat.not_le.mpr hov1
  have hc7 : ¬ (s.apps slug).priceWei <
      computeFee (s.apps slug).priceWei s.platformFee := Nat.not_lt.mpr hfee
  have hc8 : ¬ UMAX ≤ (s.apps slug).totalRevenue + (s.apps slug).priceWei :=
    Nat.not_le.mpr hov2
  have hc9 : ¬ tOk (s.apps slug).publisher
      ((s.apps slug).priceWei -
        computeFee (s.apps slug).priceWei s.platformFee) = false := by
    simp [ht1]
  have hc10 : ¬ (0 < computeFee (s.apps slug).priceWei s.platformFee ∧
      tOk s.feeCollector (computeFee (s.apps slug).priceWei s.platformFee)
        = false) := by
    rintro ⟨hpos, hfail⟩
    rw [ht2 hpos] at hfail
    exact Bool.noConfusion hfail
  have hc11 : ¬ ((s.apps slug).priceWei < msgValue ∧
      tOk sender (msgValue - (s.apps slug).priceWei) = false) := by
    rintro ⟨hlt, hfail⟩
    rw [ht3 hlt] at hfail
    exact Bool.noConfusion hfail
  rw [purchaseApp.eq_def, if_neg hc1, if_neg hc2, if_neg hprice,
    if_neg hc4, if_neg hc5, if_neg hc6, if_neg hc7, if_neg hc8,
    if_neg hc9, if_neg hc10, if_neg hc11]

theorem purchaseApp_transferFailed {s : AppStoreState}
    {sender time msgValue : Nat} {slug : String} {tOk : Nat → Nat → Bool}
    (hex : (s.apps slug).exists_ = true)
    (hact : (s.apps slug).active = true)
    (hprice : (s.apps slug).priceWei ≠ 0)
    (hflag : s.hasPurchased sender slug = false)
    (hval : (s.apps slug).priceWei ≤ msgValue)
    (hov1 : (s.apps slug).priceWei * s.platformFee < UMAX)
    (hfee : computeFee (s.apps slug).priceWei s.platformFee
      ≤ (s.apps slug).priceWei)
    (hov2 : (s.apps slug).totalRevenue + (s.apps slug).priceWei < UMAX)
    (hfail : tOk (s.apps slug).publisher
        ((s.apps slug).priceWei -
          computeFee (s.apps slug).priceWei s.platformFee) = false
      ∨ (0 < computeFee (s.apps slug).priceWei s.platformFee ∧
          tOk s.feeCollector
            (computeFee (s.apps slug).priceWei s.platformFee) = false)
      ∨ ((s.apps slug).priceWei < msgValue ∧
          tOk sender (msgValue - (s.apps slug).priceWei) = false)) :
    purchaseApp sender time msgValue slug tOk s
      = .error .TransferFailed := by
  have hc1 : ¬ (s.apps slug).exists_ = false := by simp [hex]
  have hc2 : ¬ (s.apps slug).active = false := by simp [hact]
  have hc4 : ¬ s.hasPurchased sender slug = true := by simp [hflag]
  have hc5 : ¬ msgValue < (s.apps slug).priceWei := Nat.not_lt.mpr hval
  have hc6 : ¬ UMAX ≤ (s.apps slug).priceWei * s.platformFee :=
    Nat.not_le.mpr hov1
  have hc7 : ¬ (s.apps slug).priceWei <
      computeFee (s.apps slug).priceWei s.platformFee := Nat.not_lt.mpr hfee
  have hc8 : ¬ UMAX ≤ (s.apps slug).totalRevenue + (s.apps slug).priceWei :=
    Nat.not_le.mpr hov2
  rw [purchaseApp.eq_def, if_neg hc1, if_neg hc2, if_neg hprice,
    if_neg hc4, if_neg hc5, if_neg hc6, if_neg hc7, if_neg hc8]
  by_cases c9 : tOk (s.apps slug).publisher
      ((s.apps slug).priceWei -
        computeFee (s.apps slug).priceWei s.platformFee) = false
  · rw [if_pos c9]
  rw [if_neg c9]
  by_cases c10 : 0 < computeFee (s.apps slug).priceWei s.platformFee ∧
      tOk s.feeCollector (computeFee (s.apps slug).priceWei s.platformFee)
        = false
  · rw [if_pos c10]
  rw [if_neg c10]
  rcases hfail with hf | hf | hf
  · exact absurd hf c9
  · exact absurd hf c10
  · rw [if_pos hf]

theorem registerApp_effect {s s' : AppStoreState}
    {sender time priceWei versionCode : Nat} {slug cid : String}
    (h : registerApp sender time slug cid priceWei versionCode s = .ok s') :
    s' = { s with
      apps := Function.update s.apps slug
        { publisher := sender, slug := slug, latestManifestCid := cid,
          priceWei := priceWei, totalDownloads := 0, totalRevenue := 0,
          exists_ := true, active := true, createdAt := time },
      versions := Function.update s.versions slug
        (s.versions slug ++
          [{ manifestCid := cid, timestamp := time,
             versionCode := versionCode, deprecated := false }]),
      totalApps := s.totalApps + 1 } := by
  simp only [registerApp] at h
  split at h
  · exact Except.noConfusion h
  split at h
  · exact Except.noConfusion h
  split at h
  · exact Except.noConfusion h
  cases h
  rfl

theorem publishVersion_effect {s s' : AppStoreState}
    {sender time versionCode : Nat} {slug cid : String}
    (h : publishVersion sender time slug cid versionCode s = .ok s') :
    s' = { s with
      apps := Function.update s.apps slug
        { s.apps slug with latestManifestCid := cid },
      versions := Function.update s.versions slug
        (s.versions slug ++
          [{ manifestCid := cid, timestamp := time,
             versionCode := versionCode, deprecated := false }]) } := by
  simp only [publishVersion] at h
  split at h
  · exact Except.noConfusion h
  split at h
  · exact Except.noConfusion h
  split at h
  · exact Except.noConfusion h
  split at h
  · split at h
    · exact Except.noConfusion h
    cases h
    rfl
  · cases h
    rfl

theorem updatePrice_effect {s s' : AppStoreState} {sender newPriceWei : Nat}
    {slug : String} (h : updatePrice sender slug newPriceWei s = .ok s') :
    s' = { s with
      apps := Function.update s.apps slug
        { s.apps slug with priceWei := newPriceWei } } := by
  simp only [updatePrice] at h
  split at h
  · exact Except.noConfusion h
  split at h
  · exact Except.noConfusion h
  cases h
  rfl

theorem deprecateVersion_effect {s s' : AppStoreState}
    {sender versionIndex : Nat} {slug : String}
    (h : deprecateVersion sender slug versionIndex s = .ok s') :
    s' = { s with
      versions := Function.update s.versions slug
        (markDeprecated (s.versions slug) versionIndex) } := by
  simp only [deprecateVersion] at h
  split at h
  · exact Except.noConfusion h
  split at h
  · exact Except.noConfusion h
  split at h
  · exact Except.noConfusion h
  cases h
  rfl

theorem setPlatformFee_effect {s s' : AppStoreState} {sender newFee : Nat}
    (h : setPlatformFee sender newFee s = .ok s') :
    s' = { s with platformFee := newFee } := by
  simp only [setPlatformFee] at h
  split at h
  · exact Except.noConfusion h
  split at h
  · exact Except.noConfusion h
  cases h
  rfl

theorem setFeeCollector_effect {s s' : AppStoreState}
    {sender newCollector : Nat}
    (h : setFeeCollector sender newCollector s = .ok s') :
    s' = { s with feeCollector := newCollector } := by
  simp only [setFeeCollector] at h
  split at h
  · exact Except.noConfusion h
  split at h
  · exact Except.noConfusion h
  cases h
  rfl

theorem setAppStatus_effect {s s' : AppStoreState} {sender : Nat}
    {slug : String} {active : Bool}
    (h : setAppStatus sender slug active s = .ok s') :
    s' = { s with
      apps := Function.update s.apps slug
        { s.apps slug with active := active } } := by
  simp only [setAppStatus] at h
  split at h
  · exact Except.noConfusion h
  split at h
  · exact Except.noConfusion h
  cases h
  rfl

theorem purchaseApp_frame {s s' : AppStoreState}
    {sender time msgValue : Nat} {slug : String} {tOk : Nat → Nat → Bool}
    (h : purchaseApp sender time msgValue slug tOk s = .ok s') :
    s'.versions = s.versions ∧
    (s'.hasPurchased = s.hasPurchased ∨
      s'.hasPurchased = Function.update s.hasPurchased sender
        (Function.update (s.hasPurchased sender) slug true)) := by
  simp only [purchaseApp] at h
  by_cases c1 : (s.apps slug).exists_ = false
  · rw [if_pos c1] at h; exact Except.noConfusion h
  rw [if_neg c1] at h
  by_cases c2 : (s.apps slug).active = false
  · rw [if_pos c2] at h; exact Except.noConfusion h
  rw [if_neg c2] at h
  by_cases c3 : (s.apps slug).priceWei = 0
  · rw [if_pos c3] at h
    cases h
    exact ⟨rfl, Or.inl rfl⟩
  rw [if_neg c3] at h
  by_cases c4 : s.hasPurchased sender slug = true
  · rw [if_pos c4] at h; exact Except.noConfusion h
  rw [if_neg c4] at h
  by_cases c5 : msgValue < (s.apps slug).priceWei
  · rw [if_pos c5] at h; exact Except.noConfusion h
  rw [if_neg c5] at h
  by_cases c6 : UMAX ≤ (s.apps slug).priceWei * s.platformFee
  · rw [if_pos c6] at h; exact Except.noConfusion h
  rw [if_neg c6] at h
  by_cases c7 : (s.apps slug).priceWei <
      computeFee (s.apps slug).priceWei s.platformFee
  · rw [if_pos c7] at h; exact Except.noConfusion h
  rw [if_neg c7] at h
  by_cases c8 : UMAX ≤ (s.apps slug).totalRevenue + (s.apps slug).priceWei
  · rw [if_pos c8] at h; exact Except.noConfusion h
  rw [if_neg c8] at h
  by_cases c9 : tOk (s.apps slug).publisher
      ((s.apps slug).priceWei -
        computeFee (s.apps slug).priceWei s.platformFee) = false
  · rw [if_pos c9] at h; exact Except.noConfusion h
  rw [if_neg c9] at h
  by_cases c10 : 0 < computeFee (s.apps slug).priceWei s.platformFee ∧
      tOk s.feeCollector (computeFee (s.apps slug).priceWei s.platformFee)
        = false
  · rw [if_pos c10] at h; exact Except.noConfusion h
  rw [if_neg c10] at h
  by_cases c11 : (s.apps slug).priceWei < msgValue ∧
      tOk sender (msgValue - (s.apps slug).priceWei) = false
  · rw [if_pos c11] at h; exact Except.noConfusion h
  rw [if_neg c11] at h
  cases h
  exact ⟨rfl, Or.inr rfl⟩

theorem purchaseApp_paid_inversion {s : AppStoreState}
    {sender time msgValue : Nat} {slug : String} {tOk : Nat → Nat → Bool}
    (hprice : (s.apps slug).priceWei ≠ 0)
    (h : isSuccess (purchaseApp sender time msgValue slug tOk s) = true) :
    (s.apps slug).exists_ = true ∧ (s.apps slug).active = true ∧
    s.hasPurchased sender slug = false ∧
    (s.apps slug).priceWei ≤ msgValue ∧
    (s.apps slug).priceWei * s.platformFee < UMAX ∧
    computeFee (s.apps slug).priceWei s.platformFee
      ≤ (s.apps slug).priceWei ∧
    (s.apps slug).totalRevenue + (s.apps slug).priceWei < UMAX ∧
    tOk (s.apps slug).publisher
      ((s.apps slug).priceWei -
        computeFee (s.apps slug).priceWei s.platformFee) = true ∧
    (0 < computeFee (s.apps slug).priceWei s.platformFee →
      tOk s.feeCollector
        (computeFee (s.apps slug).priceWei s.platformFee) = true) ∧
    ((s.apps slug).priceWei < msgValue →
      tOk sender (msgValue - (s.apps slug).priceWei) = true) := by
  rw [purchaseApp.eq_def] at h
  by_cases c1 : (s.apps slug).exists_ = false
  · rw [if_pos c1] at h; exact Bool.noConfusion h
  rw [if_neg c1] at h
  by_cases c2 : (s.apps slug).active = false
  · rw [if_pos c2] at h; exact Bool.noConfusion h
  rw [if_neg c2] at h
  rw [if_neg hprice] at h
  by_cases c4 : s.hasPurchased sender slug = true
  · rw [if_pos c4] at h; exact Bool.noConfusion h
  rw [if_neg c4] at h
  by_cases c5 : msgValue < (s.apps slug).priceWei
  · rw [if_pos c5] at h; exact Bool.noConfusion h
  rw [if_neg c5] at h
  by_cases c6 : UMAX ≤ (s.apps slug).priceWei * s.platformFee
  · rw [if_pos c6] at h; exact Bool.noConfusion h
  rw [if_neg c6] at h
  by_cases c7 : (s.apps slug).priceWei <
      computeFee (s.apps slug).priceWei s.platformFee
  · rw [if_pos c7] at h; exact Bool.noConfusion h
  rw [if_neg c7] at h
  by_cases c8 : UMAX ≤ (s.apps slug).totalRevenue + (s.apps slug).priceWei
  · rw [if_pos c8] at h; exact Bool.noConfusion h
  rw [if_neg c8] at h
  by_cases c9 : tOk (s.apps slug).publisher
      ((s.apps slug).priceWei -
        computeFee (s.apps slug).priceWei s.platformFee) = false
  · rw [if_pos c9] at h; exact Bool.noConfusion h
  rw [if_neg c9] at h
  by_cases c10 : 0 < computeFee (s.apps slug).priceWei s.platformFee ∧
      tOk s.feeCollector (computeFee (s.apps slug).priceWei s.platformFee)
        = false
  · rw [if_pos c10] at h; exact Bool.noConfusion h
  rw [if_neg c10] at h
  by_cases c11 : (s.apps slug).priceWei < msgValue ∧
      tOk sender (msgValue - (s.apps slug).priceWei) = false
  · rw [if_pos c11] at h; exact Bool.noConfusion h
  refine ⟨by simpa using c1, by simpa using c2, by simpa using c4,
    Nat.not_lt.mp c5, Nat.not_le.mp c6, Nat.not_lt.mp c7,
    Nat.not_le.mp c8, by simpa using c9, ?_, ?_⟩
  · intro hpos
    by_contra hfc
    exact c10 ⟨hpos, by simpa using hfc⟩
  · intro hlt
    by_contra hfc
    exact c11 ⟨hlt, by simpa using hfc⟩

theorem step_flag_mono (op : Op) (s : AppStoreState) (b : Nat) (k : String)
    (hb : s.hasPurchased b k = true) : (step op s).hasPurchased b k = true := by
  cases hap : applyOp op s with
  | error e => simpa [step, commit, hap] using hb
  | ok s1 =>
    have hst : step op s = s1 := by simp [step, commit, hap]
    rw [hst]
    cases op with
    | register sender time slug cid p v =>
      rw [registerApp_effect hap]; exact hb
    | publish sender time slug cid v =>
      rw [publishVersion_effect hap]; exact hb
    | purchase sender time value slug tOk =>
      rcases (purchaseApp_frame hap).2 with he | he
      · rw [he]; exact hb
      · rw [he]
        rcases eq_or_ne b sender with eb | eb
        · subst eb
          rw [Function.update_same]
          rcases eq_or_ne k slug with ek | ek
          · subst ek; rw [Function.update_same]
          · rw [Function.update_noteq ek]; exact hb
        · rw [Function.update_noteq eb]; exact hb
    | price sender slug p =>
      rw [updatePrice_effect hap]; exact hb
    | deprecate sender slug i =>
      rw [deprecateVersion_effect hap]; exact hb
    | fee sender f =>
      rw [setPlatformFee_effect hap]; exact hb
    | collector sender c =>
      rw [setFeeCollector_effect hap]; exact hb
    | status sender slug a =>
      rw [setAppStatus_effect hap]; exact hb

theorem step_versions_length_mono (op : Op) (s : AppStoreState)
    (k : String) :
    (s.versions k).length ≤ ((step op s).versions k).length := by
  cases hap : applyOp op s with
  | error e => simp [step, commit, hap]
  | ok s1 =>
    have hst : step op s = s1 := by simp [step, commit, hap]
    rw [hst]
    cases op with
    | register sender time slug cid p v =>
      rw [registerApp_effect hap]
      rcases eq_or_ne k slug with e | e
      · subst e; simp [Function.update_same]
      · simp [Function.update_noteq e]
    | publish sender time slug cid v =>
      rw [publishVersion_effect hap]
      rcases eq_or_ne k slug with e | e
      · subst e; simp [Function.update_same]
      · simp [Function.update_noteq e]
    | purchase sender time value slug tOk =>
      rw [(purchaseApp_frame hap).1]
    | price sender slug p =>
      rw [updatePrice_effect hap]
    | deprecate sender slug i =>
      rw [deprecateVersion_effect hap]
      rcases eq_or_ne k slug with e | e
      · subst e; simp [Function.update_same, markDeprecated_length]
      · simp [Function.update_noteq e]
    | fee sender f =>
      rw [setPlatformFee_effect hap]
    | collector sender c =>
      rw [setFeeCollector_effect hap]
    | status sender slug a =>
      rw [setAppStatus_effect hap]

/-! ## Claims -/

/-- C1: for every successful paid purchase via `purchaseApp` (price > 0)
the platform fee equals `floor(priceUnits * platformFeeBasisPoints /
10000)`, the publisher amount equals `priceUnits - fee`, and
`fee + publisherAmount = priceUnits` exactly, for every `priceUnits` and
every fee in basis points in `[0, 1000]`.  Part one is the pure
arithmetic fact for all fee settings the contract admits; part two shows
every successful paid purchase pays out exactly these amounts. -/
theorem claim_C1 :
    (∀ price bps : Nat, bps ≤ 1000 →
      computeFee price bps + (price - computeFee price bps) = price) ∧
    (∀ (s : AppStoreState) (sender time msgValue : Nat) (slug : String)
        (tOk : Nat → Nat → Bool),
      0 < (s.apps slug).priceWei →
      isSuccess (purchaseApp sender time msgValue slug tOk s) = true →
      computeFee (s.apps slug).priceWei s.platformFee +
          ((s.apps slug).priceWei -
            computeFee (s.apps slug).priceWei s.platformFee)
        = (s.apps slug).priceWei ∧
      (commit s (purchaseApp sender time msgValue slug tOk s)).transfers
        = s.transfers
          ++ [((s.apps slug).publisher,
               (s.apps slug).priceWei -
                 computeFee (s.apps slug).priceWei s.platformFee)]
          ++ (if 0 < computeFee (s.apps slug).priceWei s.platformFee then
               [(s.feeCollector,
                 computeFee (s.apps slug).priceWei s.platformFee)] else [])
          ++ (if (s.apps slug).priceWei < msgValue then
               [(sender, msgValue - (s.apps slug).priceWei)] else [])) := by
  constructor
  · intro price bps hbps
    have hfee : computeFee price bps ≤ price := by
      unfold computeFee
      calc price * bps / 10000 ≤ price * 10000 / 10000 :=
            Nat.div_le_div_right
              (Nat.mul_le_mul_left price (hbps.trans (by norm_num)))
        _ = price := Nat.mul_div_cancel price (by norm_num)
    omega
  · intro s sender time msgValue slug tOk hp hs
    obtain ⟨hex, hact, hflag, hval, hov1, hfee, hov2, ht1, ht2, ht3⟩ :=
      purchaseApp_paid_inversion (Nat.pos_iff_ne_zero.mp hp) hs
    constructor
    · omega
    · rw [purchaseApp_paid hex hact (Nat.pos_iff_ne_zero.mp hp) hflag hval
        hov1 hfee hov2 ht1 ht2 ht3]
      rfl

/-- Witness for C1: buying the 100-wei app with 150 wei attached at the
default 250 bps fee pays the publisher 98, the collector 2, and refunds
50 (specification example 2). -/
theorem claim_C1_witness :
    0 < (sChat.apps "chat").priceWei ∧
    isSuccess (purchaseApp 7 5 150 "chat" (fun _ _ => true) sChat) = true ∧
    computeFee (sChat.apps "chat").priceWei sChat.platformFee +
        ((sChat.apps "chat").priceWei -
          computeFee (sChat.apps "chat").priceWei sChat.platformFee)
      = (sChat.apps "chat").priceWei ∧
    (commit sChat (purchaseApp 7 5 150 "chat" (fun _ _ => true)
        sChat)).transfers
      = [(10, 98), (1, 2), (7, 50)] := by
  have h := claim_C1.2 sChat 7 5 150 "chat" (fun _ _ => true)
    (by decide) (by decide)
  exact ⟨by decide, by decide, h.1, h.2.trans (by decide)⟩

/-- C8: `registerApp` on a slug that is already registered always fails
with `DuplicateSlug` and leaves the whole state unchanged, so slugs stay
globally unique. -/
theorem claim_C8 : ∀ (s : AppStoreState) (sender time : Nat)
    (slug cid : String) (priceWei versionCode : Nat),
    (s.apps slug).exists_ = true →
    registerApp sender time slug cid priceWei versionCode s
      = .error .DuplicateSlug ∧
    step (Op.register sender time slug cid priceWei versionCode) s = s := by
  intro s sender time slug cid p v hex
  have he : registerApp sender time slug cid p v s
      = .error .DuplicateSlug := by
    rw [registerApp.eq_def, if_pos hex]
  exact ⟨he, by simp [step, applyOp, commit, he]⟩

/-- Witness for C8: re-registering the already-registered slug fails with
`DuplicateSlug` and leaves the state untouched. -/
theorem claim_C8_witness :
    (sChat.apps "chat").exists_ = true ∧
    registerApp 11 9 "chat" "other" 5 1 sChat = .error .DuplicateSlug ∧
    step (Op.register 11 9 "chat" "other" 5 1) sChat = sChat := by
  have h := claim_C8 sChat 11 9 "chat" "other" 5 1 (by decide)
  exact ⟨by decide, h.1, h.2⟩

/-- C9: at every reachable state, every app's `totalRevenue` equals the
sum of the `pricePaid` values of all Purchase records ever created for
it (free downloads contribute nothing, because they add no record and
no revenue). -/
theorem claim_C9 : ∀ (deployer : Nat) (ops : List Op) (slug : String),
    ((reach deployer ops).apps slug).totalRevenue
      = (((reach deployer ops).purchases slug).map Purchase.pricePaid).sum :=
  fun d ops slug => (inv_reach d ops).revenue_sum slug

/-- C10: every registered app has at least one version (registration
creates the first version atomically), and no transaction ever shrinks a
version array. -/
theorem claim_C10 :
    (∀ (deployer : Nat) (ops : List Op) (slug : String),
      ((reach deployer ops).apps slug).exists_ = true →
      1 ≤ getVersionCount slug (reach deployer ops)) ∧
    (∀ (op : Op) (s : AppStoreState) (slug : String),
      getVersionCount slug s ≤ getVersionCount slug (step op s)) := by
  constructor
  · intro d ops slug hex
    have hm := (inv_reach d ops).latest_mirror slug hex
    unfold getVersionCount
    rcases hl : (reach d ops).versions slug with _ | ⟨v, vs⟩
    · rw [hl] at hm
      simp at hm
    · simp
  · intro op s slug
    exact step_versions_length_mono op s slug

/-- Witness for C10: the freshly registered app exists and has exactly
its first version. -/
theorem claim_C10_witness :
    ((reach 1 [Op.register 10 0 "chat" "ref-123" 100 1]).apps
      "chat").exists_ = true ∧
    1 ≤ getVersionCount "chat"
      (reach 1 [Op.register 10 0 "chat" "ref-123" 100 1]) :=
  ⟨by decide,
    claim_C10.1 1 [Op.register 10 0 "chat" "ref-123" 100 1] "chat"
      (by decide)⟩

/-- C2: whenever any of the outbound transfers of a paid purchase (the
publisher payment, the fee payment, or the overpayment refund) fails,
`purchaseApp` aborts with `TransferFailed` and the whole transaction
leaves the state exactly as before: `hasPurchased`, the purchase
history, `totalDownloads` and `totalRevenue` are unchanged. -/
theorem claim_C2 : ∀ (s : AppStoreState) (sender time msgValue : Nat)
    (slug : String) (tOk : Nat → Nat → Bool),
    (s.apps slug).exists_ = true →
    (s.apps slug).active = true →
    (s.apps slug).priceWei ≠ 0 →
    s.hasPurchased sender slug = false →
    (s.apps slug).priceWei ≤ msgValue →
    (s.apps slug).priceWei * s.platformFee < UMAX →
    computeFee (s.apps slug).priceWei s.platformFee
      ≤ (s.apps slug).priceWei →
    (s.apps slug).totalRevenue + (s.apps slug).priceWei < UMAX →
    (tOk (s.apps slug).publisher
        ((s.apps slug).priceWei -
          computeFee (s.apps slug).priceWei s.platformFee) = false
      ∨ (0 < computeFee (s.apps slug).priceWei s.platformFee ∧
          tOk s.feeCollector
            (computeFee (s.apps slug).priceWei s.platformFee) = false)
      ∨ ((s.apps slug).priceWei < msgValue ∧
          tOk sender (msgValue - (s.apps slug).priceWei) = false)) →
    purchaseApp sender time msgValue slug tOk s = .error .TransferFailed ∧
    step (Op.purchase sender time msgValue slug tOk) s = s := by
  intro s sender time msgValue slug tOk hex hact hp hflag hval hov1 hfee
    hov2 hfail
  have he := @purchaseApp_transferFailed s sender time msgValue slug tOk
    hex hact hp hflag hval hov1 hfee hov2 hfail
  exact ⟨he, by simp [step, applyOp, commit, he]⟩

/-- Witness for C2: the publisher rejects the payment, so the purchase
reverts completely. -/
theorem claim_C2_witness :
    purchaseApp 7 5 150 "chat" (fun _ _ => false) sChat
      = .error .TransferFailed ∧
    step (Op.purchase 7 5 150 "chat" (fun _ _ => false)) sChat = sChat :=
  claim_C2 sChat 7 5 150 "chat" (fun _ _ => false) (by decide) (by decide)
    (by decide) (by decide) (by decide) (by decide) (by decide) (by decide)
    (Or.inl rfl)

/-- C3: for every (buyer, app) pair, at most one Purchase record ever
exists (part one, over all reachable states); a successful paid purchase
flips the buyer's flag from unset to set (part two); the flag is never
cleared by any transaction (part three); and once set, a further
`purchaseApp` by the same buyer while the price is positive fails with
`AlreadyPurchased` (part four) — hence at most one paid purchase per
pair ever succeeds. -/
theorem claim_C3 :
    (∀ (deployer : Nat) (ops : List Op) (buyer : Nat) (slug : String),
      (((reach deployer ops).purchases slug).filter
        (fun p => p.buyer == buyer)).length ≤ 1) ∧
    (∀ (s : AppStoreState) (sender time msgValue : Nat) (slug : String)
        (tOk : Nat → Nat → Bool),
      0 < (s.apps slug).priceWei →
      isSuccess (purchaseApp sender time msgValue slug tOk s) = true →
      s.hasPurchased sender slug = false ∧
      (commit s (purchaseApp sender time msgValue slug tOk s)).hasPurchased
        sender slug = true) ∧
    (∀ (op : Op) (s : AppStoreState) (buyer : Nat) (slug : String),
      s.hasPurchased buyer slug = true →
      (step op s).hasPurchased buyer slug = true) ∧
    (∀ (s : AppStoreState) (sender time msgValue : Nat) (slug : String)
        (tOk : Nat → Nat → Bool),
      (s.apps slug).exists_ = true → (s.apps slug).active = true →
      0 < (s.apps slug).priceWei → s.hasPurchased sender slug = true →
      purchaseApp sender time msgValue slug tOk s
        = .error .AlreadyPurchased) := by
  refine ⟨?_, ?_, ?_, ?_⟩
  · intro d ops b slug
    have h := (inv_reach d ops).once b slug
    exact h.trans (by split <;> omega)
  · intro s sender time msgValue slug tOk hp hs
    obtain ⟨hex, hact, hflag, hval, hov1, hfee, hov2, ht1, ht2, ht3⟩ :=
      purchaseApp_paid_inversion (Nat.pos_iff_ne_zero.mp hp) hs
    refine ⟨hflag, ?_⟩
    rw [purchaseApp_paid hex hact (Nat.pos_iff_ne_zero.mp hp) hflag hval
      hov1 hfee hov2 ht1 ht2 ht3]
    simp [commit, Function.update_same]
  · exact step_flag_mono
  · intro s sender time msgValue slug tOk hex hact hp hflag
    exact purchaseApp_already hex hact (Nat.pos_iff_ne_zero.mp hp) hflag

/-- Witness for C3: buyer 7 has bought the app once; a second attempt
fails with `AlreadyPurchased`. -/
theorem claim_C3_witness :
    sChatBought.hasPurchased 7 "chat" = true ∧
    purchaseApp 7 6 100 "chat" (fun _ _ => true) sChatBought
      = .error .AlreadyPurchased :=
  ⟨by decide,
    claim_C3.2.2.2 sChatBought 7 6 100 "chat" (fun _ _ => true)
      (by decide) (by decide) (by decide) (by decide)⟩

theorem publishVersion_ok_mono {s s1 : AppStoreState}
    {sender time versionCode : Nat} {slug cid : String} {last : Version}
    (hlast : (s.versions slug).getLast? = some last)
    (h : publishVersion sender time slug cid versionCode s = .ok s1) :
    last.versionCode < versionCode := by
  simp only [publishVersion] at h
  split at h
  · exact Except.noConfusion h
  split at h
  · exact Except.noConfusion h
  split at h
  · exact Except.noConfusion h
  rw [hlast] at h
  dsimp only at h
  split at h
  · exact Except.noConfusion h
  omega

/-- C4: in every reachable state the version codes of every app's
accepted versions (the one appended by `registerApp` followed by those
appended by successful `publishVersion` calls) form a strictly
increasing sequence, and a `publishVersion` whose code is not strictly
greater than the last appended one fails with `NonMonotonicVersion`. -/
theorem claim_C4 :
    (∀ (deployer : Nat) (ops : List Op) (slug : String),
      List.Chain' (· < ·)
        (((reach deployer ops).versions slug).map Version.versionCode)) ∧
    (∀ (s : AppStoreState) (sender time versionCode : Nat)
        (slug cid : String) (last : Version),
      (s.apps slug).exists_ = true →
      (s.apps slug).publisher = sender →
      cid ≠ "" →
      (s.versions slug).getLast? = some last →
      versionCode ≤ last.versionCode →
      publishVersion sender time slug cid versionCode s
        = .error .NonMonotonicVersion) ∧
    (∀ (s : AppStoreState) (sender time versionCode : Nat)
        (slug cid : String) (last : Version),
      (s.versions slug).getLast? = some last →
      versionCode ≤ last.versionCode →
      isSuccess (publishVersion sender time slug cid versionCode s)
        = false) := by
  refine ⟨?_, ?_, ?_⟩
  · intro d ops slug
    exact (inv_reach d ops).codes_mono slug
  · intro s sender time versionCode slug cid last hex hpub hcid hlast hle
    have hc1 : ¬ (s.apps slug).exists_ = false := by simp [hex]
    have hc2 : ¬ (s.apps slug).publisher ≠ sender := by simp [hpub]
    rw [publishVersion.eq_def, if_neg hc1, if_neg hc2, if_neg hcid, hlast]
    simp [hle]
  · intro s sender time versionCode slug cid last hlast hle
    cases hr : publishVersion sender time slug cid versionCode s with
    | error e => rfl
    | ok s1 => exact absurd (publishVersion_ok_mono hlast hr) (by omega)

/-- Witness for C4: republishing with version code 1, not greater than
the registered code 1, fails (specification example 5). -/
theorem claim_C4_witness :
    (sChat.versions "chat").getLast?
      = some { manifestCid := "ref-123", timestamp := 0, versionCode := 1,
               deprecated := false } ∧
    publishVersion 10 1 "chat" "ref-456" 1 sChat
      = .error .NonMonotonicVersion :=
  ⟨by decide,
    claim_C4.2.1 sChat 10 1 1 "chat" "ref-456"
      { manifestCid := "ref-123", timestamp := 0, versionCode := 1,
        deprecated := false }
      (by decide) (by decide) (by decide) (by decide) (by decide)⟩

/-- Counterexample to C5 as stated: the claim says a free-app
`purchaseApp` "moves no value: the caller's attached payment, if any,
is not retained by the operation".  But the function is `payable` and
the free path neither refuses nor refunds an attached payment: buying
the free app with 5 wei attached succeeds, performs no outbound
transfer, and leaves the 5 wei in the contract balance — the payment is
retained. -/
theorem claim_C5_counterexample :
    (sFree.apps "free-app").exists_ = true ∧
    (sFree.apps "free-app").active = true ∧
    (sFree.apps "free-app").priceWei = 0 ∧
    isSuccess (purchaseApp 7 3 5 "free-app" (fun _ _ => true) sFree)
      = true ∧
    sFree.contractBalance = 0 ∧
    (commit sFree (purchaseApp 7 3 5 "free-app" (fun _ _ => true)
        sFree)).contractBalance = 5 ∧
    (commit sFree (purchaseApp 7 3 5 "free-app" (fun _ _ => true)
        sFree)).transfers = sFree.transfers :=
  ⟨by decide, by decide, by decide, by decide, by decide, by decide,
    by decide⟩

/-- C5 (amended): for every existing, active app with price 0, every
`purchaseApp` call by any caller succeeds, increments `totalDownloads`
by exactly 1, changes no other app field, creates no Purchase record,
sets no purchase flag, and performs no outbound transfer; however an
attached payment is retained in the contract balance rather than
refunded. -/
theorem claim_C5 : ∀ (s : AppStoreState) (sender time msgValue : Nat)
    (slug : String) (tOk : Nat → Nat → Bool),
    (s.apps slug).exists_ = true →
    (s.apps slug).active = true →
    (s.apps slug).priceWei = 0 →
    isSuccess (purchaseApp sender time msgValue slug tOk s) = true ∧
    (commit s (purchaseApp sender time msgValue slug tOk s)).apps slug
      = { s.apps slug with
          totalDownloads := (s.apps slug).totalDownloads + 1 } ∧
    (∀ k, k ≠ slug →
      (commit s (purchaseApp sender time msgValue slug tOk s)).apps k
        = s.apps k) ∧
    (commit s (purchaseApp sender time msgValue slug tOk s)).purchases
      = s.purchases ∧
    (commit s (purchaseApp sender time msgValue slug tOk s)).hasPurchased
      = s.hasPurchased ∧
    (commit s (purchaseApp sender time msgValue slug tOk s)).transfers
      = s.transfers ∧
    (commit s (purchaseApp sender time msgValue slug tOk s)).contractBalance
      = s.contractBalance + msgValue := by
  intro s sender time msgValue slug tOk hex hact hp
  rw [purchaseApp_free hex hact hp]
  refine ⟨rfl, ?_, ?_, rfl, rfl, rfl, rfl⟩
  · simp [commit, Function.update_same]
  · intro k hk
    simp [commit, Function.update_noteq hk]

/-- Witness for C5 (amended): a free download with no payment attached
succeeds, moves no value, and bumps the download counter. -/
theorem claim_C5_witness :
    isSuccess (purchaseApp 7 3 0 "free-app" (fun _ _ => true) sFree)
      = true ∧
    (commit sFree (purchaseApp 7 3 0 "free-app" (fun _ _ => true)
        sFree)).purchases = sFree.purchases ∧
    (commit sFree (purchaseApp 7 3 0 "free-app" (fun _ _ => true)
        sFree)).transfers = sFree.transfers ∧
    (commit sFree (purchaseApp 7 3 0 "free-app" (fun _ _ => true)
        sFree)).contractBalance = sFree.contractBalance + 0 := by
  have h := claim_C5 sFree 7 3 0 "free-app" (fun _ _ => true)
    (by decide) (by decide) (by decide)
  exact ⟨h.1, h.2.2.2.1, h.2.2.2.2.2.1, h.2.2.2.2.2.2⟩

/-- Counterexample to C6 as stated: after deprecating the last appended
version, `latestManifestCid` still references that deprecated version
("c2"), not the most recently appended non-deprecated one ("c1") —
`deprecateVersion` never rewires the pointer. -/
theorem claim_C6_counterexample :
    (sDep.apps "app").exists_ = true ∧
    (sDep.versions "app").map (fun v => v.deprecated) = [false, true] ∧
    specLatestNonDeprecated (sDep.versions "app") = some "c1" ∧
    (sDep.apps "app").latestManifestCid = "c2" ∧
    specLatestNonDeprecated (sDep.versions "app")
      ≠ some ((sDep.apps "app").latestManifestCid) :=
  ⟨by decide, by decide, by decide, by decide, by decide⟩

/-- C6 (amended): in every reachable state, every registered app's
`latestManifestCid` equals the reference of the most recently appended
version, deprecated or not; `deprecateVersion` never touches any App
record or any version's reference, so the pointer survives deprecation
of any index including the last. -/
theorem claim_C6 :
    (∀ (deployer : Nat) (ops : List Op) (slug : String),
      ((reach deployer ops).apps slug).exists_ = true →
      (((reach deployer ops).versions slug).getLast?).map
          Version.manifestCid
        = some ((reach deployer ops).apps slug).latestManifestCid) ∧
    (∀ (s : AppStoreState) (sender versionIndex : Nat) (slug : String),
      (commit s (deprecateVersion sender slug versionIndex s)).apps
        = s.apps ∧
      ∀ k, ((commit s (deprecateVersion sender slug versionIndex
          s)).versions k).map Version.manifestCid
        = (s.versions k).map Version.manifestCid) := by
  constructor
  · intro d ops slug hex
    exact (inv_reach d ops).latest_mirror slug hex
  · intro s sender versionIndex slug
    cases hd : deprecateVersion sender slug versionIndex s with
    | error e =>
      exact ⟨rfl, fun k => rfl⟩
    | ok s1 =>
      have he := deprecateVersion_effect hd
      refine ⟨?_, ?_⟩
      · rw [show commit s (.ok s1) = s1 from rfl, he]
      · intro k
        rw [show commit s (.ok s1) = s1 from rfl, he]
        rcases eq_or_ne k slug with e | e
        · subst e
          simp [Function.update_same, markDeprecated_map_manifestCid]
        · simp [Function.update_noteq e]

/-- Witness for C6 (amended): in the deprecation scenario the pointer
equals the last appended version's reference. -/
theorem claim_C6_witness :
    ((reach 1 [Op.register 10 0 "app" "c1" 0 1,
        Op.publish 10 1 "app" "c2" 2,
        Op.deprecate 10 "app" 1]).apps "app").exists_ = true ∧
    (((reach 1 [Op.register 10 0 "app" "c1" 0 1,
        Op.publish 10 1 "app" "c2" 2,
        Op.deprecate 10 "app" 1]).versions "app").getLast?).map
        Version.manifestCid
      = some ((reach 1 [Op.register 10 0 "app" "c1" 0 1,
          Op.publish 10 1 "app" "c2" 2,
          Op.deprecate 10 "app" 1]).apps "app").latestManifestCid :=
  ⟨by decide,
    claim_C6.1 1 [Op.register 10 0 "app" "c1" 0 1,
      Op.publish 10 1 "app" "c2" 2, Op.deprecate 10 "app" 1] "app"
      (by decide)⟩

/-- Counterexample to C7 as stated: the claim says all four read-only
queries fail with `NotFound` on an unregistered slug and none returns a
default value.  In fact only `getApp` checks existence:
`getVersionCount` returns the default 0, `hasPurchased` returns the
default `false`, and `getVersion` fails with `InvalidIndex`, not
`NotFound`. -/
theorem claim_C7_counterexample :
    ((initState 1).apps "nope").exists_ = false ∧
    getVersionCount "nope" (initState 1) = 0 ∧
    hasUserPurchased 7 "nope" (initState 1) = false ∧
    getVersion "nope" 0 (initState 1) = .error .InvalidIndex ∧
    getApp "nope" (initState 1) = .error .NotFound :=
  ⟨by decide, by decide, by decide, rfl, rfl⟩

/-- C7 (amended): on a slug with no registered app (in any reachable
state), `getApp` fails with `NotFound`; `getVersion` fails with
`InvalidIndex` for every index (the version array is empty);
`getVersionCount` returns the default 0 and `hasPurchased` returns the
default `false` instead of failing. -/
theorem claim_C7 : ∀ (deployer : Nat) (ops : List Op) (slug : String)
    (user index : Nat),
    ((reach deployer ops).apps slug).exists_ = false →
    getApp slug (reach deployer ops) = .error .NotFound ∧
    getVersion slug index (reach deployer ops) = .error .InvalidIndex ∧
    getVersionCount slug (reach deployer ops) = 0 ∧
    hasUserPurchased user slug (reach deployer ops) = false := by
  intro d ops slug user index hex
  have hv := (inv_reach d ops).fresh_versions slug hex
  have hf := (inv_reach d ops).fresh_flag user slug hex
  refine ⟨?_, ?_, ?_, hf⟩
  · simp [getApp, hex]
  · simp [getVersion, hv]
  · simp [getVersionCount, hv]

/-- Witness for C7 (amended): queried on a slug never registered. -/
theorem claim_C7_witness :
    ((reach 1 []).apps "nope").exists_ = false ∧
    getApp "nope" (reach 1 []) = .error .NotFound ∧
    getVersion "nope" 3 (reach 1 []) = .error .InvalidIndex ∧
    getVersionCount "nope" (reach 1 []) = 0 ∧
    hasUserPurchased 7 "nope" (reach 1 []) = false := by
  have h := claim_C7 1 [] "nope" 7 3 (by decide)
  exact ⟨by decide, h.1, h.2.1, h.2.2.1, h.2.2.2⟩
